import Mathlib

/-!
Verification of the Lang parsing and resolution engine (`pgt/lang.py`).

The embedding below translates the module line by line:
  * `_make_lang_dict` — the line tokenizer and tree builder,
  * `LangEval.get_value` / `_make_lang_obj` — the reference resolver,
  * `LangError` message rendering,
  * `loads` / `load` — the public entry points.
Python's mutable dicts are modelled as insertion-ordered association
lists; mutation through the scope stack is modelled by folding a closed
set back into its parent at pop time, which yields the same tree as the
aliasing in the source.
-/

namespace PgtLang

/-- A single quote character, for building error messages. -/
def sq : String := String.mk ['\x27']

/-- Characters removed by Python's str.strip and str.lstrip (ASCII
whitespace; the line splitter has already removed every newline). -/
def pyIsSpace (c : Char) : Bool :=
  c == ' ' || c == '\t' || c == '\n' || c == '\r' || c == '\x0b' || c == '\x0c'

/-- Python str.lstrip on the characters of a line. -/
def pyLstrip (cs : List Char) : List Char := cs.dropWhile pyIsSpace

/-- Python `l.strip() == ""`: every character is whitespace. -/
def isBlankLine (cs : List Char) : Bool := cs.all pyIsSpace

/-- ASCII lower-casing of one character, as Python str.lower does on
the ASCII encoding names used by the module. -/
def pyLowerChar (c : Char) : Char :=
  if 'A' ≤ c ∧ c ≤ 'Z' then Char.ofNat (c.toNat + 32) else c

/-- Python str.lower (ASCII fragment). -/
def pyLower (s : String) : String := String.mk (s.data.map pyLowerChar)

/-- Python s.split(sep) for a one-character separator: always returns at
least one (possibly empty) piece. -/
def splitOnC (sep : Char) : List Char → List (List Char)
  | [] => [[]]
  | c :: rest =>
    let r := splitOnC sep rest
    if c == sep then [] :: r
    else
      match r with
      | [] => [[c]]
      | h :: t => (c :: h) :: t

/-- Python `"." .join` of the branches of a reference path. -/
def dotJoin : List String → String
  | [] => ""
  | [s] => s
  | s :: rest => s ++ "." ++ dotJoin rest

/-- `while l[:1] == "$": l = l[1:]; dict_count += 1` — count the leading
dollar markers of a line and return the remainder. -/
def countDollars : List Char → Nat × List Char
  | [] => (0, [])
  | c :: rest =>
    if c = '$' then
      let p := countDollars rest
      (p.1 + 1, p.2)
    else (0, c :: rest)

/-- Python `l.find(":")` followed by the slices `l[:idx]` and
`l[idx+1:]`: the text before and after the first colon, if any. -/
def findColon : List Char → Option (List Char × List Char)
  | [] => none
  | c :: rest =>
    if c = ':' then some ([], rest)
    else
      match findColon rest with
      | none => none
      | some (a, b) => some (c :: a, b)

/-- `name_expr = re.compile(r"[a-zA-Z_]\w*", re.ASCII)`: a name starts
with a letter or underscore. -/
def isNameStart (c : Char) : Bool :=
  (decide ('a' ≤ c) && decide (c ≤ 'z')) ||
  (decide ('A' ≤ c) && decide (c ≤ 'Z')) || c == '_'

/-- With re.ASCII, `\w` matches only letters, digits and underscore. -/
def isNameChar (c : Char) : Bool :=
  isNameStart c || (decide ('0' ≤ c) && decide (c ≤ '9'))

/-- `name_expr.match(s)` succeeding with `match[0] == s`: the whole
string is one identifier. -/
def validName (cs : List Char) : Bool :=
  match cs with
  | [] => false
  | c :: rest => isNameStart c && rest.all isNameChar

/-- The message of the LangError raised by `_check_name`. -/
def nameErrMsg (s : String) : String :=
  "name " ++ sq ++ s ++ sq ++ " is not a valid"

/-- The exceptions that can escape a parse: `LangError(l_no, msg, file)`,
the `EncodingWarning(name)` signal used for the encoding restart, the
`TypeError` Python raises when `+` is applied to a non-string node, and
the decoding failure of `open(path, encoding=...)` itself. -/
inductive LangErr where
  | langError (l_no : Nat) (msg : String) (file : String)
  | encodingWarning (name : String)
  | typeError
  | decodeError (encoding : String)

/-- `LangError.__init__`: the rendered message, with the file name
quoted unless it is the sentinel `<string>`, and the line number shown
1-based. -/
def renderLangError (l_no : Nat) (msg : String) (file : String) : String :=
  let f := if file = "<string>" then file else "\"" ++ file ++ "\""
  "File " ++ f ++ ", line " ++ toString (l_no + 1) ++ " - " ++ msg

mutual
/-- A value of the raw tree built by `_make_lang_dict`: a plain string,
a child set (Python dict), or a `LangEval` deferred reference carrying
the dotted path, the local flag, the declaring line, the file name and
the `added_value` accumulator. -/
inductive RawVal where
  | str (s : String)
  | dict (entries : RawDict)
  | eval (branches : List String) (isLocal : Bool) (l_no : Nat)
      (file : String) (added : String)

/-- A Python dict in insertion order, as an association list. -/
inductive RawDict where
  | nil
  | cons (key : String) (val : RawVal) (rest : RawDict)
end

/-- `d[k]` on a raw dict: the first binding of `k`, if any. -/
def dGet (d : RawDict) (k : String) : Option RawVal :=
  match d with
  | .nil => none
  | .cons k2 v rest => if k2 = k then some v else dGet rest k

/-- `d[k] = v` on a raw dict: replaces in place an existing binding
(Python dicts keep the insertion position on re-assignment), otherwise
appends the new binding at the end. -/
def dSet (d : RawDict) (k : String) (v : RawVal) : RawDict :=
  match d with
  | .nil => .cons k v .nil
  | .cons k2 v2 rest =>
    if k2 = k then .cons k2 v rest else .cons k2 v2 (dSet rest k v)

/-- Modelled from the spec: the build state of `_make_lang_dict`. The
class `Stack` lives in `pgt/stack.py`, which is not part of the sources
here; following the spec's scope-stack description it is modelled as the
root dict plus the list of currently open sets, innermost first, each
with the key under which it was inserted in its parent. `len(dict_stack)`
is the number of open sets plus one (the root), `peek` is the innermost
open set (or the root), `pop` closes the innermost open set, and `attr`
is the pending-attribute name. -/
structure BState where
  root : RawDict
  opens : List (String × RawDict)
  attr : String

/-- `len(dict_stack)`: the open sets plus the root. -/
def stackLen (st : BState) : Nat := st.opens.length + 1

/-- `dict_stack.peek()`: the innermost open set, or the root. -/
def peek (st : BState) : RawDict :=
  match st.opens with
  | [] => st.root
  | (_, d) :: _ => d

/-- Writing through `dict_stack.peek()`: replace the innermost open
set's contents (or the root's). -/
def setPeek (st : BState) (d : RawDict) : BState :=
  match st.opens with
  | [] => BState.mk d st.opens st.attr
  | (n, _) :: rest => BState.mk st.root ((n, d) :: rest) st.attr

/-- `dict_stack.pop()`: fold the innermost open set back into its
parent under the key it was created with. In the source the parent
already holds the same dict object by aliasing, so this write-back
reproduces the mutation. -/
def pop (st : BState) : BState :=
  match st.opens with
  | [] => st
  | (n, d) :: rest =>
    match rest with
    | [] => BState.mk (dSet st.root n (RawVal.dict d)) [] st.attr
    | (n2, d2) :: rest2 =>
      BState.mk st.root ((n2, dSet d2 n (RawVal.dict d)) :: rest2) st.attr

/-- `pop` iterated. -/
def popN (st : BState) : Nat → BState
  | 0 => st
  | k + 1 => popN (pop st) k

/-- `while dict_count < len(dict_stack): dict_stack.pop()`. -/
def popTo (st : BState) (dict_count : Nat) : BState :=
  popN st (stackLen st - dict_count)

/-- `dict_stack.peek()[l] = {}; dict_stack.push(dict_stack.peek()[l]);
attr = ""` — create a new empty child set under the current top and
make it the new top. -/
def pushSet (st : BState) (nm : String) : BState :=
  let st2 := setPeek st (dSet (peek st) nm (RawVal.dict RawDict.nil))
  BState.mk st2.root ((nm, RawDict.nil) :: st2.opens) ""

/-- The continuation-line content: a leading `&` strips itself and
suppresses the trailing newline; otherwise a leading `\` strips itself
and a newline is appended after the (remaining) line. -/
def contentOf (cs : List Char) : String :=
  if cs.take 1 = ['&'] then String.mk (cs.drop 1)
  else (if cs.take 1 = ['\\'] then String.mk (cs.drop 1) else String.mk cs) ++ "\n"

/-- The fall-through branch of the loop body of `_make_lang_dict`: a
continuation line is appended to the pending attribute's value
(`dict_stack.peek()[attr] += l`, creating the entry on KeyError);
appending to a dict raises TypeError, appending to a LangEval grows its
`added_value`; with no pending attribute a LangError is raised. -/
def textStep (st : BState) (l_no : Nat) (cs : List Char) (file : String) :
    Except LangErr BState :=
  let l := contentOf cs
  if st.attr ≠ "" then
    match dGet (peek st) st.attr with
    | some (RawVal.str s) =>
      .ok (setPeek st (dSet (peek st) st.attr (RawVal.str (s ++ l))))
    | some (RawVal.eval b lo ln f a) =>
      .ok (setPeek st (dSet (peek st) st.attr (RawVal.eval b lo ln f (a ++ l))))
    | some (RawVal.dict _) => .error LangErr.typeError
    | none => .ok (setPeek st (dSet (peek st) st.attr (RawVal.str l)))
  else .error (LangErr.langError l_no "text with no attribute" file)

/-- One iteration of the line loop of `_make_lang_dict`. -/
def processLine (st : BState) (l_no : Nat) (line : List Char)
    (encoding file : String) : Except LangErr BState :=
  if isBlankLine line then .ok st else
  let l := pyLstrip line
  if l.take 2 = ['%', '='] then
    let name := String.mk (l.drop 2)
    if pyLower name ≠ pyLower encoding then .error (LangErr.encodingWarning name)
    else .ok (BState.mk st.root st.opens "")
  else if l.take 2 = [':', ':'] then .ok st
  else if l.take 1 = ['$'] then
    let p := countDollars l
    if stackLen st < p.1 then
      .error (LangErr.langError l_no "accessing child set with no parent" file)
    else
      let st2 := popTo st p.1
      if p.2 = ['!'] then .ok st2
      else if validName p.2 then .ok (pushSet st2 (String.mk p.2))
      else .error (LangErr.langError l_no (nameErrMsg (String.mk p.2)) file)
  else if l.take 1 = ['@'] then
    let l2 := l.drop 1
    match findColon l2 with
    | some (nm, rest) =>
      if validName nm then
        .ok (BState.mk (setPeek st (dSet (peek st) (String.mk nm)
              (RawVal.str (String.mk rest)))).root
            (setPeek st (dSet (peek st) (String.mk nm)
              (RawVal.str (String.mk rest)))).opens "")
      else .error (LangErr.langError l_no (nameErrMsg (String.mk nm)) file)
    | none =>
      if validName l2 then .ok (BState.mk st.root st.opens (String.mk l2))
      else .error (LangErr.langError l_no (nameErrMsg (String.mk l2)) file)
  else if l.take 2 = ['~', '@'] ∨ l.take 3 = ['.', '~', '@'] then
    let isLoc := l.take 3 = ['.', '~', '@']
    let l2 := if isLoc then l.drop 3 else l.drop 2
    match splitOnC ':' l2 with
    | [nm, v] =>
      if validName nm then
        .ok (BState.mk (setPeek st (dSet (peek st) (String.mk nm)
              (RawVal.eval ((splitOnC '.' v).map String.mk) isLoc l_no file ""))).root
            (setPeek st (dSet (peek st) (String.mk nm)
              (RawVal.eval ((splitOnC '.' v).map String.mk) isLoc l_no file ""))).opens "")
      else .error (LangErr.langError l_no (nameErrMsg (String.mk nm)) file)
    | _ :: _ :: _ => .error (LangErr.langError l_no "invalid syntax" file)
    | _ => .error (LangErr.langError l_no ("expected " ++ sq ++ ":" ++ sq) file)
  else textStep st l_no l file

/-- The line loop of `_make_lang_dict`. -/
def buildLoop (encoding file : String) :
    List (List Char) → Nat → BState → Except LangErr BState
  | [], _, st => .ok st
  | l :: rest, l_no, st =>
    match processLine st l_no l encoding file with
    | .error e => .error e
    | .ok st2 => buildLoop encoding file rest (l_no + 1) st2

/-- `return root`: in the source the still-open sets are reachable from
the root by aliasing, so the returned dict is the state with every open
set folded back in. -/
def finalize (st : BState) : RawDict := (popN st st.opens.length).root

/-- `_make_lang_dict(s, encoding, file)` on an already decoded text. -/
def _make_lang_dict (s : String) (encoding file : String) :
    Except LangErr RawDict :=
  match buildLoop encoding file (splitOnC '\n' s.data) 0
      (BState.mk RawDict.nil [] "") with
  | .error e => .error e
  | .ok st => .ok (finalize st)

mutual
/-- A value met while resolving: a string, a `LangNode` child set,
Python's None (what `get_value` returns when a reference has an empty
branch list — unreachable from the parser), or a bound method — the
object `getattr` yields when the name misses the instance data but is a
method of the class (`LangNode.get`, `LangNode.empty`, or a built-in
str method). -/
inductive ResVal where
  | str (s : String)
  | node (entries : ResDict)
  | pynone
  | method

/-- The `__dict__` of a `LangNode`, in insertion order. -/
inductive ResDict where
  | nil
  | cons (key : String) (val : ResVal) (rest : ResDict)
end

/-- The non-dunder methods of Python's built-in str type (CPython 3.10,
the version the module's `bytes | bytearray` syntax requires): the names
`getattr` finds on a string value even though it has no instance data. -/
def strMethodNames : List String :=
  ["capitalize", "casefold", "center", "count", "encode", "endswith",
   "expandtabs", "find", "format", "format_map", "index", "isalnum",
   "isalpha", "isascii", "isdecimal", "isdigit", "isidentifier",
   "islower", "isnumeric", "isprintable", "isspace", "istitle",
   "isupper", "join", "ljust", "lower", "lstrip", "maketrans",
   "partition", "removeprefix", "removesuffix", "replace", "rfind",
   "rindex", "rjust", "rpartition", "rsplit", "rstrip", "split",
   "splitlines", "startswith", "strip", "swapcase", "title",
   "translate", "upper", "zfill"]

/-- Whether a name starts with two underscores. Every attribute an
object inherits from `object` (such as `__repr__`, `__dict__`,
`__class__`) is so shaped; the model below treats those names as absent
and no theorem depends on a path segment of this shape. -/
def startsDunder (s : String) : Bool := s.data.take 2 == ['_', '_']

/-- Member access during resolution: `c_obj[v]` on a dict or
`getattr(c_obj, v)` on a LangNode find the member of that name. On a
LangNode, getattr looks in the instance data first (the methods are
non-data descriptors, so instance attributes shadow them) and falls back
to the class methods `empty` and `get`, yielding a bound method; on a
string it finds the built-in str methods; on None or a bound method no
non-dunder name resolves. A failed access raises
AttributeError/KeyError, which `get_value` turns into a LangError.
Attributes inherited from `object` (dunder names such as `__repr__`,
`__dict__`, `__class__`) are outside the model: the theorems below only
quantify over path segments that do not start with two underscores. -/
def lookupMember (v : ResVal) (k : String) : Option ResVal :=
  match v with
  | .node entries =>
    match rGet entries k with
    | some r => some r
    | none => if k = "empty" ∨ k = "get" then some ResVal.method else none
  | .str _ => if strMethodNames.contains k then some ResVal.method else none
  | _ => none
where
  /-- First binding of a key in a resolved dict. -/
  rGet : ResDict → String → Option ResVal
  | .nil, _ => none
  | .cons k2 v2 rest, k => if k2 = k then some v2 else rGet rest k

/-- `setattr(this_node, i, v)` in insertion order. -/
def rSet (d : ResDict) (k : String) (v : ResVal) : ResDict :=
  match d with
  | .nil => .cons k v .nil
  | .cons k2 v2 rest =>
    if k2 = k then .cons k2 v rest else .cons k2 v2 (rSet rest k v)

/-- `return c_obj + self.added_value` at the last branch: string
concatenation on a string, an uncaught TypeError on any other object
(a LangNode, None, or a bound method). -/
def addValue (v : ResVal) (added : String) : Except LangErr ResVal :=
  match v with
  | .str s => .ok (.str (s ++ added))
  | _ => .error LangErr.typeError

/-- The loop of `LangEval.get_value`: walk the remaining branches from
the current object; a failed member access raises a LangError naming the
full dotted path and the declaring line; at the last branch the result
is `c_obj + added_value`; an empty branch list falls off the loop and
returns None. -/
def get_value_loop (c : ResVal) (rest : List String) (full : List String)
    (added : String) (l_no : Nat) (file : String) : Except LangErr ResVal :=
  match rest with
  | [] => .ok ResVal.pynone
  | v :: rest2 =>
    match lookupMember c v with
    | none =>
      .error (LangErr.langError l_no
        ("the value " ++ dotJoin full ++ " is not valid") file)
    | some c2 =>
      match rest2 with
      | [] => addValue c2 added
      | _ :: _ => get_value_loop c2 rest2 full added l_no file

/-- `LangEval.get_value(lang_obj)`. -/
def get_value (branches : List String) (l_no : Nat) (file : String)
    (added : String) (obj : ResVal) : Except LangErr ResVal :=
  get_value_loop obj branches branches added l_no file

mutual
/-- One entry of `_make_lang_obj`'s loop: a child dict is resolved
recursively against the root seen at this moment; a LangEval is
evaluated against `this_node` (the accumulator) when local, against
`root_node` otherwise — at the top level the two coincide, which is the
`root = none` case; a string is kept. -/
def resolveVal (root : Option ResDict) (acc : ResDict) :
    RawVal → Except LangErr ResVal
  | .str s => .ok (ResVal.str s)
  | .dict d =>
    match resolveDict (some (root.getD acc)) d ResDict.nil with
    | .error e => .error e
    | .ok child => .ok (ResVal.node child)
  | .eval b isLoc ln f a =>
    get_value b ln f a (ResVal.node (if isLoc then acc else root.getD acc))

/-- The loop of `_make_lang_obj` over the entries of one dict, threading
`this_node` as it is mutated by `setattr`. -/
def resolveDict (root : Option ResDict) :
    RawDict → ResDict → Except LangErr ResDict
  | .nil, acc => .ok acc
  | .cons i v rest, acc =>
    match resolveVal root acc v with
    | .error e => .error e
    | .ok rv => resolveDict root rest (rSet acc i rv)
end

/-- `_make_lang_obj(d)`: the top-level call, where `root_node` is
`this_node` itself. -/
def _make_lang_obj (d : RawDict) : Except LangErr ResDict :=
  resolveDict none d ResDict.nil

/-- `loads(s, encoding, as_dict=False, file)`: build the raw dict, then
resolve it. An EncodingWarning raised by the build propagates. -/
def loads (s : String) (encoding file : String) : Except LangErr ResDict :=
  match _make_lang_dict s encoding file with
  | .error e => .error e
  | .ok d => _make_lang_obj d

/-- A file on disk, as `load` sees it: a path and, for every encoding
name, the text that `open(path, encoding=name).read()` yields (none when
opening or decoding with that encoding fails). -/
structure RawFile where
  path : String
  decode : String → Option String

/-- `load(path, encoding)`: parse the decoded file; on the
EncodingWarning signal reopen the file with the declared encoding and
parse once more, outside the try block, so a second EncodingWarning
propagates instead of starting a third attempt. -/
def load (f : RawFile) (encoding : String) : Except LangErr ResDict :=
  match f.decode encoding with
  | none => .error (LangErr.decodeError encoding)
  | some s =>
    match loads s encoding f.path with
    | .error (LangErr.encodingWarning name) =>
      match f.decode name with
      | none => .error (LangErr.decodeError name)
      | some s2 => loads s2 name f.path
    | r => r

/-- The membership walk of `get_value`'s loop, as a predicate: true when
some segment of the dotted path fails to find a member — neither
instance data nor a class-attribute fallback — i.e. the walk of the
loop raises AttributeError/KeyError at that segment. -/
def pathMissing (obj : ResVal) : List String → Bool
  | [] => false
  | v :: rest =>
    match lookupMember obj v with
    | none => true
    | some c => pathMissing c rest

/-- A concrete file for exercising `load`. -/
def sampleFile : RawFile :=
  RawFile.mk "a.lang" (fun e =>
    if e = "utf-8" then some "%=ascii\n@x:1\n"
    else if e = "ascii" then some "%=ascii\n@x:1\n" else none)

/-! ## Helper lemmas about the line classifier -/

theorem countDollars_replicate_append (k : Nat) (cs : List Char)
    (h : cs.take 1 ≠ ['$']) :
    countDollars (List.replicate k '$' ++ cs) = (k, cs) := by
  induction k with
  | zero =>
    cases cs with
    | nil => rfl
    | cons c rest =>
      have hc : c ≠ '$' := by
        intro hd; apply h; simp [hd]
      simp [countDollars, hc]
  | succ m ih =>
    simp [List.replicate_succ, countDollars, ih]

/-- Evaluation of `processLine` on a line of one-or-more `$` markers
followed by anything that is not a further marker: the whole `$` branch
of the loop body. -/
theorem processLine_dollar (st : BState) (l_no m : Nat) (cs : List Char)
    (h : cs.take 1 ≠ ['$']) (enc file : String) :
    processLine st l_no (List.replicate (m + 1) '$' ++ cs) enc file =
      (if stackLen st < m + 1 then
        Except.error (LangErr.langError l_no "accessing child set with no parent" file)
      else if cs = ['!'] then Except.ok (popTo st (m + 1))
      else if validName cs then Except.ok (pushSet (popTo st (m + 1)) (String.mk cs))
      else Except.error (LangErr.langError l_no (nameErrMsg (String.mk cs)) file)) := by
  have hrep : List.replicate (m + 1) '$' ++ cs
      = '$' :: (List.replicate m '$' ++ cs) := by
    simp [List.replicate_succ]
  rw [hrep]
  have hsp : pyIsSpace '$' = false := rfl
  have hblank : isBlankLine ('$' :: (List.replicate m '$' ++ cs)) = false := by
    simp [isBlankLine, hsp]
  have hstrip : pyLstrip ('$' :: (List.replicate m '$' ++ cs))
      = '$' :: (List.replicate m '$' ++ cs) := by
    simp [pyLstrip, List.dropWhile_cons, hsp]
  unfold processLine
  rw [hblank]
  simp only [Bool.false_eq_true, if_false]
  rw [hstrip]
  have hcd : countDollars ('$' :: (List.replicate m '$' ++ cs)) = (m + 1, cs) := by
    have hx := countDollars_replicate_append (m + 1) cs h
    rw [List.replicate_succ] at hx
    simpa using hx
  simp only [List.take_succ_cons, List.take_zero, hcd]
  have h1 : (('$' : Char) :: List.take 1 (List.replicate m '$' ++ cs)) ≠ ['%', '='] := by
    intro hx; injection hx with ha hb; exact absurd ha (by decide)
  have h2 : (('$' : Char) :: List.take 1 (List.replicate m '$' ++ cs)) ≠ [':', ':'] := by
    intro hx; injection hx with ha hb; exact absurd ha (by decide)
  rw [if_neg h1, if_neg h2]
  simp only [if_true]

theorem validName_take_ne_dollar (cs : List Char) (h : validName cs = true) :
    cs.take 1 ≠ ['$'] := by
  cases cs with
  | nil => simp
  | cons c rest =>
    intro hx
    have hc : c = '$' := by simpa using hx
    subst hc
    have hns : isNameStart '$' = false := rfl
    simp [validName, hns] at h

theorem validName_ne_bang (cs : List Char) (h : validName cs = true) :
    cs ≠ ['!'] := by
  intro hx
  subst hx
  have hns : isNameStart '!' = false := rfl
  simp [validName, hns] at h

/-! ## Helper lemmas about the scope stack -/

theorem pop_attr (st : BState) : (pop st).attr = st.attr := by
  unfold pop
  cases h : st.opens with
  | nil => rfl
  | cons p rest => cases p with
    | mk n d => cases rest <;> rfl

theorem popN_attr (st : BState) (k : Nat) : (popN st k).attr = st.attr := by
  induction k generalizing st with
  | zero => rfl
  | succ m ih => rw [popN, ih, pop_attr]

theorem pop_opens_length (st : BState) :
    (pop st).opens.length = st.opens.length - 1 := by
  unfold pop
  cases h : st.opens with
  | nil => simp [h]
  | cons p rest => cases p with
    | mk n d => cases rest <;> simp

theorem stackLen_popN (st : BState) (k : Nat) (h : k ≤ st.opens.length) :
    stackLen (popN st k) = stackLen st - k := by
  induction k generalizing st with
  | zero => simp [popN]
  | succ m ih =>
    rw [popN, ih (pop st) (by rw [pop_opens_length]; omega)]
    unfold stackLen
    rw [pop_opens_length]
    omega

theorem stackLen_popTo (st : BState) (n : Nat) (h1 : 1 ≤ n)
    (h2 : n ≤ stackLen st) :
    stackLen (popTo st n) = n := by
  unfold popTo
  rw [stackLen_popN st (stackLen st - n) (by unfold stackLen at h2 ⊢; omega)]
  unfold stackLen at h2 ⊢
  omega

/-! ## The claims -/

/-- Walking a path with a missing segment always produces the LangError
naming the full dotted path. -/

theorem get_value_loop_missing (rest : List String) (full : List String)
    (obj : ResVal) (added : String) (l_no : Nat) (file : String)
    (h : pathMissing obj rest = true) :
    get_value_loop obj rest full added l_no file =
      Except.error (LangErr.langError l_no
        ("the value " ++ dotJoin full ++ " is not valid") file) := by
  induction rest generalizing obj with
  | nil => simp [pathMissing] at h
  | cons v rest2 ih =>
    unfold get_value_loop
    unfold pathMissing at h
    cases hm : lookupMember obj v with
    | none => rfl
    | some c =>
      rw [hm] at h
      cases rest2 with
      | nil => simp [pathMissing] at h
      | cons w rest3 => exact ih c h

/-- Claim C1: an absolute reference (`~@name:path`) is resolved by walking
its dotted path starting from the document root set, and a relative
reference (`.~@name:path`) starting from the set in which it was
declared; in particular `$a\n  @x:1\n$!\n~@y:a.x\n` resolves to the
tree a -> (x -> "1"), y -> "1". The first conjunct shows the base node
handed to `get_value` is the declaring set for a local reference and the
root for an absolute one; the third is an input on which the two scopes
resolve the same path name to different targets. -/
theorem c1_reference_scopes :
    (∀ (root acc : ResDict) (i : String) (b : List String) (isLoc : Bool)
        (ln : Nat) (f a : String) (rest : RawDict),
      resolveDict (some root) (RawDict.cons i (RawVal.eval b isLoc ln f a) rest) acc =
        match get_value b ln f a (ResVal.node (if isLoc then acc else root)) with
        | .error e => .error e
        | .ok rv => resolveDict (some root) rest (rSet acc i rv)) ∧
    loads "$a\n  @x:1\n$!\n~@y:a.x\n" "utf-8" "<string>" =
      .ok (ResDict.cons "a" (ResVal.node (ResDict.cons "x" (ResVal.str "1") ResDict.nil))
        (ResDict.cons "y" (ResVal.str "1") ResDict.nil)) ∧
    loads "$s\n  @x:in\n  .~@r:x\n$!\n@x:out\n~@t:x\n" "utf-8" "<string>" =
      .ok (ResDict.cons "s"
            (ResVal.node (ResDict.cons "x" (ResVal.str "in")
              (ResDict.cons "r" (ResVal.str "in") ResDict.nil)))
        (ResDict.cons "x" (ResVal.str "out")
          (ResDict.cons "t" (ResVal.str "out") ResDict.nil))) := by
  refine ⟨?_, by rfl, by rfl⟩
  intro root acc i b isLoc ln f a rest
  cases isLoc <;> simp [resolveDict, resolveVal]

/-- Claim C2 as stated is false: a `$!` line with no open set is accepted
(the parse of "$!\n" succeeds and yields the empty root), and a `$!`
line with two open sets closes both of them, not exactly one — the
following `@z:1` lands in the root, not inside `a`. -/
theorem c2_counterexample :
    _make_lang_dict "$!\n" "utf-8" "<string>" = .ok RawDict.nil ∧
    _make_lang_dict "$a\n$$b\n$!\n@z:1\n" "utf-8" "<string>" =
      .ok (RawDict.cons "a"
            (RawVal.dict (RawDict.cons "b" (RawVal.dict RawDict.nil) RawDict.nil))
        (RawDict.cons "z" (RawVal.str "1") RawDict.nil)) := ⟨rfl, rfl⟩

/-- Claim C2, amended: a line of n `$` markers followed by `!` pops the
scope stack down to height n, closing every open set of depth at least
n (so n-1 sets remain open), and errors exactly when n exceeds the
current stack height (open sets plus the root), not when it exceeds the
number of open sets. -/
theorem c2_amended_close_semantics (st : BState) (l_no m : Nat) (enc file : String) :
    processLine st l_no (List.replicate (m + 1) '$' ++ ['!']) enc file =
      (if stackLen st < m + 1 then
        Except.error (LangErr.langError l_no "accessing child set with no parent" file)
      else Except.ok (popTo st (m + 1))) ∧
    (m + 1 ≤ stackLen st → stackLen (popTo st (m + 1)) = m + 1) := by
  constructor
  · rw [processLine_dollar st l_no m ['!'] (by decide) enc file]
    by_cases h : stackLen st < m + 1
    · rw [if_pos h, if_pos h]
    · rw [if_neg h, if_neg h, if_pos rfl]
  · intro h
    exact stackLen_popTo st (m + 1) (by omega) h

/-- Witness for the amended claim C2 at a stack with one open set. -/
theorem c2_witness :
    processLine (BState.mk RawDict.nil [("a", RawDict.nil)] "") 5 ['$', '!'] "utf-8" "<string>" =
      Except.ok (popTo (BState.mk RawDict.nil [("a", RawDict.nil)] "") 1) ∧
    stackLen (popTo (BState.mk RawDict.nil [("a", RawDict.nil)] "") 1) = 1 := by
  have h := c2_amended_close_semantics (BState.mk RawDict.nil [("a", RawDict.nil)] "")
    5 0 "utf-8" "<string>"
  have h1 := h.1
  rw [if_neg (by decide)] at h1
  exact ⟨h1, h.2 (by decide)⟩

/-- Claim C3: a set-opening line whose marker count d is at most the
scope-stack height implicitly closes all open sets at depth >= d
(`popTo`), then creates the new set under the set remaining on top and
pushes it (`pushSet`); `$a\n  $$b\n$c\n` parses to a -> (b -> {}),
c -> {}. -/
theorem c3_open_auto_closes :
    (∀ (st : BState) (l_no m : Nat) (nm : List Char) (enc file : String),
      validName nm = true → m + 1 ≤ stackLen st →
      processLine st l_no (List.replicate (m + 1) '$' ++ nm) enc file =
        Except.ok (pushSet (popTo st (m + 1)) (String.mk nm))) ∧
    loads "$a\n  $$b\n$c\n" "utf-8" "<string>" =
      .ok (ResDict.cons "a" (ResVal.node (ResDict.cons "b" (ResVal.node ResDict.nil) ResDict.nil))
        (ResDict.cons "c" (ResVal.node ResDict.nil) ResDict.nil)) := by
  refine ⟨?_, by rfl⟩
  intro st l_no m nm enc file hnm hle
  rw [processLine_dollar st l_no m nm (validName_take_ne_dollar nm hnm) enc file]
  rw [if_neg (by omega), if_neg (validName_ne_bang nm hnm), if_pos hnm]

/-- Witness for claim C3: opening `$b` while `a` is open. -/
theorem c3_witness :
    processLine (BState.mk RawDict.nil [("a", RawDict.nil)] "x") 2 ['$', 'b'] "utf-8" "<string>" =
      Except.ok (pushSet (popTo (BState.mk RawDict.nil [("a", RawDict.nil)] "x") 1)
        (String.mk ['b'])) := by
  exact c3_open_auto_closes.1 (BState.mk RawDict.nil [("a", RawDict.nil)] "x")
    2 0 ['b'] "utf-8" "<string>" (by decide) (by decide)

/-- Claim C4: a continuation line starting with `&` is stripped of the
`&` and gets no trailing newline; otherwise a leading `\` (if present)
is stripped and a newline is appended; `@greeting\nHello\n` gives
greeting = "Hello\n" and `@greeting\n&Hello\n` gives
greeting = "Hello". -/
theorem c4_continuation_escapes :
    (∀ cs : List Char, contentOf ('&' :: cs) = String.mk cs) ∧
    (∀ cs : List Char, contentOf ('\\' :: cs) = String.mk cs ++ "\n") ∧
    (∀ (c : Char) (cs : List Char), c ≠ '&' → c ≠ '\\' →
      contentOf (c :: cs) = String.mk (c :: cs) ++ "\n") ∧
    loads "@greeting\nHello\n" "utf-8" "<string>" =
      .ok (ResDict.cons "greeting" (ResVal.str "Hello\n") ResDict.nil) ∧
    loads "@greeting\n&Hello\n" "utf-8" "<string>" =
      .ok (ResDict.cons "greeting" (ResVal.str "Hello") ResDict.nil) := by
  refine ⟨?_, ?_, ?_, by rfl, by rfl⟩
  · intro cs; simp [contentOf]
  · intro cs; simp [contentOf]
  · intro c cs h1 h2
    unfold contentOf
    rw [if_neg (by simpa using h1), if_neg (by simpa using h2)]

/-- Witness for claim C4 on a line with no escape marker. -/
theorem c4_witness :
    contentOf ['H', 'i'] = String.mk ['H', 'i'] ++ "\n" := by
  exact c4_continuation_escapes.2.2.1 'H' ['i'] (by decide) (by decide)

/-- Claim C5 as stated is false: after `~@a:x.y`, a re-declaration
`~@a:` replaces the reference with a fresh one (with the empty path) and
resets the pending attribute, so the following text line raises
"text with no attribute" instead of being appended. -/
theorem c5_counterexample :
    _make_lang_dict "$x\n  @y:1\n$!\n~@a:x.y\n~@a:\nfoo\n" "utf-8" "<string>" =
      .error (LangErr.langError 5 "text with no attribute" "<string>") := rfl

/-- Claim C5, amended: re-opening a reference-typed attribute with a
bare `@a` line and following it with text lines appends rather than
replaces — each text line grows the reference's accumulator, and
resolution yields the resolved value of `x.y` concatenated with the
accumulated text in declaration order. -/
theorem c5_amended_reference_chaining :
    (∀ (st : BState) (l_no : Nat) (cs : List Char) (file : String)
        (b : List String) (lo : Bool) (ln : Nat) (f a : String),
      st.attr ≠ "" → dGet (peek st) st.attr = some (RawVal.eval b lo ln f a) →
      textStep st l_no cs file =
        Except.ok (setPeek st (dSet (peek st) st.attr
          (RawVal.eval b lo ln f (a ++ contentOf cs))))) ∧
    loads "$x\n  @y:1\n$!\n~@a:x.y\n@a\nfoo\nbar\n" "utf-8" "<string>" =
      .ok (ResDict.cons "x" (ResVal.node (ResDict.cons "y" (ResVal.str "1") ResDict.nil))
        (ResDict.cons "a" (ResVal.str "1foo\nbar\n") ResDict.nil)) := by
  refine ⟨?_, by rfl⟩
  intro st l_no cs file b lo ln f a h1 h2
  unfold textStep
  rw [if_pos h1, h2]

/-- Witness for the amended claim C5: one text line appended to a
pending reference-typed attribute. -/
theorem c5_witness :
    textStep (BState.mk (RawDict.cons "a" (RawVal.eval ["x"] false 0 "<string>" "") RawDict.nil)
        [] "a") 1 ['f'] "<string>" =
      Except.ok (setPeek (BState.mk (RawDict.cons "a" (RawVal.eval ["x"] false 0 "<string>" "") RawDict.nil) [] "a")
        (dSet (peek (BState.mk (RawDict.cons "a" (RawVal.eval ["x"] false 0 "<string>" "") RawDict.nil) [] "a")) "a"
          (RawVal.eval ["x"] false 0 "<string>" ("" ++ contentOf ['f'])))) := by
  exact c5_amended_reference_chaining.1
    (BState.mk (RawDict.cons "a" (RawVal.eval ["x"] false 0 "<string>" "") RawDict.nil) [] "a")
    1 ['f'] "<string>" ["x"] false 0 "<string>" "" (by decide) (by rfl)

/-- Claim C6 describes the intended behaviour, but the code fails on a
reference whose final target is a child set: resolution computes
LangNode + str, which raises an uncaught TypeError, as on the input
`$a\n  @x:1\n$!\n~@y:a\n`. -/
theorem c6_set_reference_type_error :
    loads "$a\n  @x:1\n$!\n~@y:a\n" "utf-8" "<string>" = .error LangErr.typeError ∧
    (∀ (entries : ResDict) (added : String),
      addValue (ResVal.node entries) added = .error LangErr.typeError) :=
  ⟨rfl, fun _ _ => rfl⟩

/-- Claim C7 as stated is false: a dotted path can have a segment that
is missing from the tree and still not raise the path-naming LangError.
When the missing name collides with a Python attribute of the object —
a LangNode method such as `get`, or a str method such as `strip` —
getattr finds the bound method, and the final `+ added_value` raises an
uncaught TypeError instead of the single error kind. -/
theorem c7_counterexample :
    loads "~@y:get\n" "utf-8" "<string>" = .error LangErr.typeError ∧
    loads "@x:1\n~@y:x.strip\n" "utf-8" "<string>" = .error LangErr.typeError :=
  ⟨rfl, rfl⟩

/-- Claim C7, amended: a deferred reference whose dotted path fails at a
missing segment makes resolution raise the single error kind — carrying
the declaring line and a message naming the full original dotted path,
the rendered message having the form File "<source>", line N - <message>
with N 1-based — provided the path's names do not collide with
Python-level attributes of the walked objects (the LangNode methods
`get`/`empty`, the built-in str methods, and dunder-named attributes
inherited from `object`, which the quantifier excludes); a missing name
that does collide yields a bound method and an uncaught TypeError
instead. `~@y:nope.none` raises the error naming nope.none. -/
theorem c7_missing_path_error :
    (∀ (obj : ResVal) (branches : List String) (added : String) (l_no : Nat) (file : String),
      branches.all (fun s => !startsDunder s) = true →
      pathMissing obj branches = true →
      get_value branches l_no file added obj =
        Except.error (LangErr.langError l_no
          ("the value " ++ dotJoin branches ++ " is not valid") file)) ∧
    (∀ (l_no : Nat) (msg file : String), file ≠ "<string>" →
      renderLangError l_no msg file =
        "File " ++ "\"" ++ file ++ "\"" ++ ", line " ++ toString (l_no + 1) ++ " - " ++ msg) ∧
    loads "~@y:nope.none\n" "utf-8" "f.lang" =
      .error (LangErr.langError 0 "the value nope.none is not valid" "f.lang") ∧
    renderLangError 0 "the value nope.none is not valid" "f.lang" =
      "File \"f.lang\", line 1 - the value nope.none is not valid" := by
  refine ⟨?_, ?_, by rfl, by rfl⟩
  · intro obj branches added l_no file _ h
    exact get_value_loop_missing branches branches obj added l_no file h
  · intro l_no msg file h
    unfold renderLangError
    rw [if_neg h]
    simp [String.append_assoc]
    rw [← String.append_assoc]
    rfl

/-- Witness for claim C7 at the path nope.none on an empty root. -/
theorem c7_witness :
    pathMissing (ResVal.node ResDict.nil) ["nope", "none"] = true ∧
    get_value ["nope", "none"] 0 "f.lang" "" (ResVal.node ResDict.nil) =
      Except.error (LangErr.langError 0
        ("the value " ++ dotJoin ["nope", "none"] ++ " is not valid") "f.lang") ∧
    renderLangError 7 "msg" "f.lang" =
      "File " ++ "\"" ++ "f.lang" ++ "\"" ++ ", line " ++ toString (7 + 1) ++ " - " ++ "msg" := by
  refine ⟨by rfl, ?_, ?_⟩
  · exact c7_missing_path_error.1 (ResVal.node ResDict.nil) ["nope", "none"] "" 0 "f.lang"
      (by rfl) (by rfl)
  · exact c7_missing_path_error.2.1 7 "msg" "f.lang" (by decide)

/-- Claim C8: a `%=name` line whose name differs case-insensitively from
the encoding in use aborts the build with the EncodingWarning signal,
while a case-insensitive match is accepted and only resets the pending
attribute; `load` restarts the parse exactly once with the declared
encoding applied to the raw file, and a second EncodingWarning
propagates instead of triggering another attempt. -/
theorem c8_encoding_restart :
    (∀ (st : BState) (l_no : Nat) (cs : List Char) (enc file : String),
      pyLower (String.mk cs) = pyLower enc →
      processLine st l_no ('%' :: '=' :: cs) enc file =
        Except.ok (BState.mk st.root st.opens "")) ∧
    (∀ (st : BState) (l_no : Nat) (cs : List Char) (enc file : String),
      pyLower (String.mk cs) ≠ pyLower enc →
      processLine st l_no ('%' :: '=' :: cs) enc file =
        Except.error (LangErr.encodingWarning (String.mk cs))) ∧
    (∀ (f : RawFile) (enc s name : String),
      f.decode enc = some s →
      loads s enc f.path = Except.error (LangErr.encodingWarning name) →
      load f enc =
        (match f.decode name with
        | none => Except.error (LangErr.decodeError name)
        | some s2 => loads s2 name f.path)) := by
  have hsp : pyIsSpace '%' = false := rfl
  have key : ∀ (st : BState) (l_no : Nat) (cs : List Char) (enc file : String),
      processLine st l_no ('%' :: '=' :: cs) enc file =
        (if pyLower (String.mk cs) ≠ pyLower enc
          then Except.error (LangErr.encodingWarning (String.mk cs))
          else Except.ok (BState.mk st.root st.opens "")) := by
    intro st l_no cs enc file
    have hblank : isBlankLine ('%' :: '=' :: cs) = false := by
      simp [isBlankLine, hsp]
    have hstrip : pyLstrip ('%' :: '=' :: cs) = '%' :: '=' :: cs := by
      simp [pyLstrip, List.dropWhile_cons, hsp]
    unfold processLine
    rw [hblank]
    simp only [Bool.false_eq_true, if_false]
    rw [hstrip]
    simp only [List.take_succ_cons, List.take_zero, List.drop_succ_cons,
      List.drop_zero]
    simp only [if_true]
  refine ⟨?_, ?_, ?_⟩
  · intro st l_no cs enc file h
    rw [key st l_no cs enc file, if_neg (by simp [h])]
  · intro st l_no cs enc file h
    rw [key st l_no cs enc file, if_pos h]
  · intro f enc s name h1 h2
    unfold load
    simp only [h1, h2]

/-- Witness for claim C8: a file declaring `%=ascii` parsed with utf-8
restarts once and succeeds, and a matching declaration is accepted. -/
theorem c8_witness :
    load sampleFile "utf-8" = .ok (ResDict.cons "x" (ResVal.str "1") ResDict.nil) ∧
    processLine (BState.mk RawDict.nil [] "x") 0 ['%', '=', 'a'] "A" "<string>" =
      Except.ok (BState.mk RawDict.nil [] "") := by
  constructor
  · have h := c8_encoding_restart.2.2 sampleFile "utf-8" "%=ascii\n@x:1\n" "ascii"
      (by rfl) (by rfl)
    rw [h]
    rfl
  · exact c8_encoding_restart.1 (BState.mk RawDict.nil [] "x") 0 ['a'] "A" "<string>" (by rfl)

/-- Claim C9 as stated is false: a bare `@x` followed by `$!` and then a
plain text line does not raise "text with no attribute" — the close line
leaves the pending attribute in place and the text becomes the value of
`x` in the set that is current after the close (here the root). -/
theorem c9_counterexample :
    _make_lang_dict "$s\n  @x\n$!\nfoo\n" "utf-8" "<string>" =
      .ok (RawDict.cons "s" (RawVal.dict RawDict.nil)
        (RawDict.cons "x" (RawVal.str "foo\n") RawDict.nil)) := rfl

/-- Claim C9, amended: an explicit close line does not reset the
pending-attribute context — it only pops the scope stack, preserving the
pending attribute, so later text is appended under that name in the set
that is current after the close. -/
theorem c9_amended_close_keeps_attr :
    (∀ (st : BState) (l_no m : Nat) (enc file : String), m + 1 ≤ stackLen st →
      processLine st l_no (List.replicate (m + 1) '$' ++ ['!']) enc file =
        Except.ok (popTo st (m + 1)) ∧ (popTo st (m + 1)).attr = st.attr) ∧
    loads "$s\n  @x\n$!\nfoo\n" "utf-8" "<string>" =
      .ok (ResDict.cons "s" (ResVal.node ResDict.nil)
        (ResDict.cons "x" (ResVal.str "foo\n") ResDict.nil)) := by
  refine ⟨?_, by rfl⟩
  intro st l_no m enc file h
  constructor
  · rw [processLine_dollar st l_no m ['!'] (by decide) enc file]
    rw [if_neg (by omega), if_pos rfl]
  · exact popN_attr st (stackLen st - (m + 1))

/-- Witness for the amended claim C9: the pending attribute survives a
`$!` line. -/
theorem c9_witness :
    processLine (BState.mk RawDict.nil [("s", RawDict.nil)] "x") 2 ['$', '!'] "utf-8" "<string>" =
      Except.ok (popTo (BState.mk RawDict.nil [("s", RawDict.nil)] "x") 1) ∧
    (popTo (BState.mk RawDict.nil [("s", RawDict.nil)] "x") 1).attr = "x" := by
  have h := c9_amended_close_keeps_attr.1 (BState.mk RawDict.nil [("s", RawDict.nil)] "x")
    2 0 "utf-8" "<string>" (by decide)
  exact ⟨h.1, h.2⟩

/-- Claim C10: when the pending attribute's name already holds a plain
string in the current set, continuation lines are appended onto that
existing string, so `@x:1\n@x\nfoo\n` yields x = "1foo\n". -/
theorem c10_reopen_string_appends :
    (∀ (st : BState) (l_no : Nat) (cs : List Char) (file s : String),
      st.attr ≠ "" → dGet (peek st) st.attr = some (RawVal.str s) →
      textStep st l_no cs file =
        Except.ok (setPeek st (dSet (peek st) st.attr (RawVal.str (s ++ contentOf cs))))) ∧
    loads "@x:1\n@x\nfoo\n" "utf-8" "<string>" =
      .ok (ResDict.cons "x" (ResVal.str "1foo\n") ResDict.nil) := by
  refine ⟨?_, by rfl⟩
  intro st l_no cs file s h1 h2
  unfold textStep
  rw [if_pos h1, h2]

/-- Witness for claim C10: a continuation line appended to an existing
string value. -/
theorem c10_witness :
    textStep (BState.mk (RawDict.cons "x" (RawVal.str "1") RawDict.nil) [] "x") 2 ['f'] "<string>" =
      Except.ok (setPeek (BState.mk (RawDict.cons "x" (RawVal.str "1") RawDict.nil) [] "x")
        (dSet (peek (BState.mk (RawDict.cons "x" (RawVal.str "1") RawDict.nil) [] "x")) "x"
          (RawVal.str ("1" ++ contentOf ['f'])))) := by
  exact c10_reopen_string_appends.1
    (BState.mk (RawDict.cons "x" (RawVal.str "1") RawDict.nil) [] "x") 2 ['f'] "<string>" "1"
    (by decide) (by rfl)

end PgtLang
